import Mathlib

/-!
Shallow embedding of the MoS mouse-steering core.

Sources embedded here:
* `src/constants.py` — vJoy axis constants.
* `src/steering_logic.py` — class `SteeringLogic`: `start_steering`,
  `stop_steering`, `on_move`, `reset_steering_view`, `update_sensitivity`.
* `src/MoS-feat-standalone-mouse-steering-app/.../config.py` and
  `core_logic.py` — the standalone variant's `SteeringLogic.stop` and
  `_send_data_update` (namespace `MoSCore` below).

Modelling conventions:
* Python floats are modelled by `ℚ`.  Every arithmetic step of the
  pipeline (smoothing mean, wraparound correction, accumulation,
  clamping, axis scaling, Python `int()` truncation) is translated
  exactly.
* `math.atan2`/`math.degrees` and `math.sqrt` are transcendental, so the
  angle extractor and the offset computation are abstracted into an
  environment `Env` of two arbitrary functions of (center, position);
  every theorem below holds for every such environment, hence in
  particular for the real `atan2`/`sqrt`.
* The `collections.deque(maxlen=5)` is a list with the eviction rule of
  `dequeAppend`.
* Side effects (vJoy `set_axis` writes, GUI callbacks) are modelled as an
  output list of `Out` events returned next to the new state; the mouse
  listener thread object itself carries no modelled state.
-/

namespace MoS

/-- `MAX_VJOY_AXIS` from `constants.py` (same value in the standalone
`config.py`). -/
def MAX_VJOY_AXIS : Int := 32767

/-- `MIN_VJOY_AXIS` from `constants.py`. -/
def MIN_VJOY_AXIS : Int := 0

/-- `CENTER_VJOY_AXIS = (MAX_VJOY_AXIS + MIN_VJOY_AXIS) // 2` from
`constants.py`. -/
def CENTER_VJOY_AXIS : Int := (MAX_VJOY_AXIS + MIN_VJOY_AXIS) / 2

/-- `maxlen` of `self.angle_history = deque(maxlen=5)` in
`steering_logic.py` (`ANGLE_SMOOTHING_FACTOR = 5` in the standalone
`config.py`). -/
def ANGLE_HISTORY_MAXLEN : Nat := 5

/-- The `self.rotation_direction` strings `"Clockwise"`,
`"Counterclockwise"`, `"None"`. -/
inductive Direction
  | clockwise
  | counterclockwise
  | neutral
deriving DecidableEq

/-- Python `int()` applied to a rational: truncation toward zero. -/
def pyInt (q : ℚ) : Int := if 0 ≤ q then ⌊q⌋ else ⌈q⌉

/-- Wraparound normalization of the smoothed-angle delta,
`steering_logic.py` lines 195–198 (identically `core_logic.py`
lines 229–230). -/
def wrapDelta (delta : ℚ) : ℚ :=
  if delta > 180 then delta - 360
  else if delta < -180 then delta + 360
  else delta

/-- Direction classification and accumulation with clamping,
`steering_logic.py` lines 207–223 (identically `core_logic.py`
lines 238–249): the `offset`-vs-center-threshold check first, then the
hysteresis comparisons, then the clamp of `total_accumulated_degrees`
to `[-max_degrees, max_degrees]`. -/
def stepRotation (offset centerThresh delta dirThresh maxDeg total : ℚ) :
    Direction × ℚ :=
  let classified : Direction × ℚ :=
    if offset < centerThresh then (Direction.neutral, total)
    else if delta > dirThresh then (Direction.clockwise, total + |delta|)
    else if delta < -dirThresh then (Direction.counterclockwise, total - |delta|)
    else (Direction.neutral, total)
  (classified.1, max (-maxDeg) (min maxDeg classified.2))

/-- Axis scaling of `steering_logic.py` lines 234–243:
`normalized_value = (total - (-max_degrees)) / (2*max_degrees)` (with the
`0.5` fallback when `2*max_degrees == 0`), then
`int(normalized_value * (MAX_VJOY_AXIS - MIN_VJOY_AXIS) + MIN_VJOY_AXIS)`
and the failsafe clamp into `[MIN_VJOY_AXIS, MAX_VJOY_AXIS]`. -/
def axisFromRotation (maxDeg total : ℚ) : Int :=
  let normalized : ℚ :=
    if 2 * maxDeg = 0 then 1/2
    else (total - (-maxDeg)) / (2 * maxDeg)
  let raw : Int :=
    pyInt (normalized * ((MAX_VJOY_AXIS : ℚ) - (MIN_VJOY_AXIS : ℚ)) +
      (MIN_VJOY_AXIS : ℚ))
  max MIN_VJOY_AXIS (min MAX_VJOY_AXIS raw)

/-- Modelled from the spec: §4.5 AxisMapper with
`axis_value = round(normalized * (max_axis - min_axis) + min_axis)`,
round-to-nearest, for refinement comparison with the source's
truncating `axisFromRotation`. -/
def axisFromRotationSpec (maxDeg total : ℚ) : Int :=
  let normalized : ℚ :=
    if 2 * maxDeg = 0 then 1/2
    else (total + maxDeg) / (2 * maxDeg)
  let raw : Int :=
    round (normalized * ((MAX_VJOY_AXIS : ℚ) - (MIN_VJOY_AXIS : ℚ)) +
      (MIN_VJOY_AXIS : ℚ))
  max MIN_VJOY_AXIS (min MAX_VJOY_AXIS raw)

/-- Append to a `deque(maxlen=n)`: push right, evict from the left when
over capacity. -/
def dequeAppend (maxlen : Nat) (h : List ℚ) (a : ℚ) : List ℚ :=
  let h2 := h ++ [a]
  if maxlen < h2.length then h2.drop (h2.length - maxlen) else h2

/-- The mutable fields of `SteeringLogic.__init__` in
`steering_logic.py` (the standalone variant's state has the same
fields).  `vjoy_device` is `true` when the device was acquired,
`screen_center` is `none` until `set_screen_center` runs. -/
structure SteeringState where
  sensitivity : ℚ
  max_degrees : ℚ
  direction_change_threshold : ℚ
  mouse_center_threshold : ℚ
  current_raw_angle : ℚ
  previous_smoothed_angle : ℚ
  total_accumulated_degrees : ℚ
  rotation_direction : Direction
  current_offset : ℚ
  angular_velocity : ℚ
  previous_angular_velocity : ℚ
  angular_acceleration : ℚ
  screen_center : Option (Int × Int)
  angle_history : List ℚ
  vjoy_device : Bool
  is_steering : Bool
deriving DecidableEq

/-- The `gui_data` dictionary sent through `app_callback("update_gui", ·)`
in `steering_logic.py`. -/
structure Snapshot where
  offset : ℚ
  raw_angle : ℚ
  smoothed_angle : ℚ
  total_accumulated_degrees : ℚ
  rotation_direction : Direction
  angular_velocity : ℚ
  angular_acceleration : ℚ
  vjoy_axis_value : Int
deriving DecidableEq

/-- Observable effects of one operation: a `set_axis` write to the vJoy
sink, a status / error callback, or a GUI snapshot callback. -/
inductive Out
  | sinkWrite (v : Int)
  | statusMsg (m : String)
  | errorMsg (m : String)
  | guiUpdate (d : Snapshot)
deriving DecidableEq

/-- The sequence of values written to the analog sink within an output
list. -/
def sinkWrites (l : List Out) : List Int :=
  l.filterMap fun e =>
    match e with
    | Out.sinkWrite v => some v
    | _ => Option.none

/-- The `vjoy_axis_value` fields of the GUI snapshots within an output
list. -/
def snapshotAxes (l : List Out) : List Int :=
  l.filterMap fun e =>
    match e with
    | Out.guiUpdate d => some d.vjoy_axis_value
    | _ => Option.none

/-- Abstraction of the transcendental geometry:
`extractAngle c p` stands for
`math.degrees(math.atan2(p.y - c.y, p.x - c.x))` and `offsetOf c p` for
`math.sqrt((p.x - c.x)**2 + (p.y - c.y)**2)`.  All theorems hold for
every `Env`. -/
structure Env where
  extractAngle : Int × Int → Int × Int → ℚ
  offsetOf : Int × Int → Int × Int → ℚ

/-- `SteeringLogic._calculate_raw_angle`: returns `0.0` when the screen
center is unset, otherwise the angle of the position relative to the
center. -/
def calcRawAngle (env : Env) (s : SteeringState) (pos : Int × Int) : ℚ :=
  match s.screen_center with
  | Option.none => 0
  | some c => env.extractAngle c pos

/-- Default field values set by `SteeringLogic.__init__`
(`steering_logic.py` lines 14–50); `vjoyOk` is the outcome of the
`_initialize_vjoy` acquisition attempt. -/
def initState (vjoyOk : Bool) : SteeringState where
  sensitivity := 1
  max_degrees := 1080
  direction_change_threshold := 1
  mouse_center_threshold := 15
  current_raw_angle := 0
  previous_smoothed_angle := 0
  total_accumulated_degrees := 0
  rotation_direction := Direction.neutral
  current_offset := 0
  angular_velocity := 0
  previous_angular_velocity := 0
  angular_acceleration := 0
  screen_center := Option.none
  angle_history := []
  vjoy_device := vjoyOk
  is_steering := false

/-- `SteeringLogic.on_move` (`steering_logic.py` lines 166–258): the
full per-event pipeline.  Early return when not steering or the screen
center is unset; otherwise offset, raw angle, deque append, moving
average, wraparound-corrected delta, velocity and acceleration,
classification / accumulation / clamp, vJoy write (when the device is
available) and GUI snapshot. -/
def on_move (env : Env) (pos : Int × Int) (s : SteeringState) :
    SteeringState × List Out :=
  match s.screen_center with
  | Option.none => (s, [])
  | some c =>
    if s.is_steering then
      let offset := env.offsetOf c pos
      let rawAngle := env.extractAngle c pos
      let history := dequeAppend ANGLE_HISTORY_MAXLEN s.angle_history rawAngle
      let smoothed := history.sum / (history.length : ℚ)
      let delta := wrapDelta (smoothed - s.previous_smoothed_angle)
      let velocity := delta
      let accel := velocity - s.previous_angular_velocity
      let dirTotal := stepRotation offset s.mouse_center_threshold delta
        s.direction_change_threshold s.max_degrees s.total_accumulated_degrees
      let axisVal := axisFromRotation s.max_degrees dirTotal.2
      let s2 := { s with
        current_offset := offset
        current_raw_angle := rawAngle
        angle_history := history
        angular_velocity := velocity
        angular_acceleration := accel
        previous_angular_velocity := velocity
        rotation_direction := dirTotal.1
        total_accumulated_degrees := dirTotal.2
        previous_smoothed_angle := smoothed }
      let snap : Snapshot := {
        offset := offset
        raw_angle := rawAngle
        smoothed_angle := smoothed
        total_accumulated_degrees := dirTotal.2
        rotation_direction := dirTotal.1
        angular_velocity := velocity
        angular_acceleration := accel
        vjoy_axis_value := if s.vjoy_device then axisVal else CENTER_VJOY_AXIS }
      (s2, (if s.vjoy_device then [Out.sinkWrite axisVal] else []) ++
        [Out.guiUpdate snap])
    else (s, [])

/-- `SteeringLogic.start_steering` (`steering_logic.py` lines 100–139).
`mousePos` is the position returned by `get_mouse_position()` at the
moment of the call.  Guards in source order: already steering, vJoy
unavailable, screen center unset — each returns without mutating state.
Otherwise the smoother is re-seeded with `maxlen` copies of the current
angle and the kinematic fields are zeroed. -/
def start_steering (env : Env) (mousePos : Int × Int) (s : SteeringState) :
    SteeringState × List Out :=
  if s.is_steering then (s, [])
  else if s.vjoy_device = false then
    (s, [Out.errorMsg "vJoy device not available. Cannot start."])
  else
    match s.screen_center with
    | Option.none =>
      (s, [Out.errorMsg "Screen center not set. Please ensure GUI initializes it."])
    | some c =>
      let seed := env.extractAngle c mousePos
      ({ s with
          is_steering := true
          previous_smoothed_angle := seed
          angle_history := List.replicate ANGLE_HISTORY_MAXLEN seed
          angular_velocity := 0
          previous_angular_velocity := 0
          angular_acceleration := 0
          rotation_direction := Direction.neutral },
       [Out.statusMsg "Steering Active"])

/-- `SteeringLogic.stop_steering` (`steering_logic.py` lines 142–164):
early return when not steering; otherwise detach the listener, write the
center value to the sink when the device is available, zero velocity and
acceleration, keep `total_accumulated_degrees`. -/
def stop_steering (s : SteeringState) : SteeringState × List Out :=
  if s.is_steering = false then (s, [])
  else
    ({ s with
        is_steering := false
        angular_velocity := 0
        angular_acceleration := 0 },
     (if s.vjoy_device then [Out.sinkWrite CENTER_VJOY_AXIS] else []) ++
       [Out.statusMsg "Steering Stopped"])

/-- `SteeringLogic.reset_steering_view` (`steering_logic.py`
lines 260–302), success path of the `get_mouse_position()` call with
`mousePos` the returned position: zero `total_accumulated_degrees` and
the kinematic fields, re-seed the smoother from the current position,
write center to the sink when the device is available (source lines
282–285 do this both while steering and while stopped), then publish the
reset snapshot and status. -/
def reset_steering_view (env : Env) (mousePos : Int × Int)
    (s : SteeringState) : SteeringState × List Out :=
  let seed := calcRawAngle env s mousePos
  let s2 := { s with
    total_accumulated_degrees := 0
    angular_velocity := 0
    previous_angular_velocity := 0
    angular_acceleration := 0
    previous_smoothed_angle := seed
    angle_history := List.replicate ANGLE_HISTORY_MAXLEN seed }
  let snap : Snapshot := {
    offset := s2.current_offset
    raw_angle := s2.current_raw_angle
    smoothed_angle := seed
    total_accumulated_degrees := 0
    rotation_direction := Direction.neutral
    angular_velocity := 0
    angular_acceleration := 0
    vjoy_axis_value := CENTER_VJOY_AXIS }
  (s2, (if s.vjoy_device then [Out.sinkWrite CENTER_VJOY_AXIS] else []) ++
    [Out.guiUpdate snap, Out.statusMsg "View Recentered"])

/-- `SteeringLogic.update_sensitivity` (`steering_logic.py`
lines 305–314): store the new value and report; nothing else. -/
def update_sensitivity (v : ℚ) (s : SteeringState) :
    SteeringState × List Out :=
  ({ s with sensitivity := v }, [Out.statusMsg "Sensitivity updated"])

/-- Fold `on_move` over a list of pointer events. -/
def runEvents (env : Env) (events : List (Int × Int)) (s : SteeringState) :
    SteeringState :=
  events.foldl (fun st p => (on_move env p st).1) s

/-- A concrete environment for witnesses. -/
def constEnv : Env where
  extractAngle := fun _ _ => 0
  offsetOf := fun _ _ => 0

/-- A concrete reachable state for witnesses: the fresh state after
`set_screen_center(0, 0)` and a successful `start_steering`. -/
def activeState : SteeringState :=
  { initState true with screen_center := some (0, 0), is_steering := true }

end MoS

namespace MoSCore

/-- The `data` dictionary emitted by `_send_data_update` in the
standalone `core_logic.py`; unlike the other variant it also carries
`is_steering`. -/
structure Snapshot where
  offset : ℚ
  raw_angle : ℚ
  smoothed_angle : ℚ
  total_accumulated_degrees : ℚ
  rotation_direction : MoS.Direction
  angular_velocity : ℚ
  angular_acceleration : ℚ
  vjoy_axis_value : Int
  is_steering : Bool
deriving DecidableEq

/-- Observable effects of the standalone variant: vJoy writes, status
strings, and `data_updated` snapshots. -/
inductive Out
  | sinkWrite (v : Int)
  | statusMsg (m : String)
  | guiUpdate (d : Snapshot)
deriving DecidableEq

/-- Axis recomputation shared by `_on_move_handler`, `_send_data_update`
and `_get_current_vjoy_axis_value` in `core_logic.py`:
`normalized = (total + max_degrees) / (2*max_degrees)` (with the `0.5`
fallback), `int(...)`, then the clamp.  The constants come from
`config.py` and equal those of `constants.py`. -/
def axisValueOf (maxDeg total : ℚ) : Int :=
  let normalized : ℚ :=
    if 2 * maxDeg = 0 then 1/2
    else (total + maxDeg) / (2 * maxDeg)
  let raw : Int :=
    MoS.pyInt (normalized * ((MoS.MAX_VJOY_AXIS : ℚ) - (MoS.MIN_VJOY_AXIS : ℚ)) +
      (MoS.MIN_VJOY_AXIS : ℚ))
  max MoS.MIN_VJOY_AXIS (min MoS.MAX_VJOY_AXIS raw)

/-- `SteeringLogic._send_data_update` (`core_logic.py` lines 263–284):
recomputes the axis value from the retained
`total_accumulated_degrees` when the device is available (falling back
to the center constant otherwise) and publishes the snapshot. -/
def sendDataUpdate (s : MoS.SteeringState) : List Out :=
  let axisVal : Int :=
    if s.vjoy_device then axisValueOf s.max_degrees s.total_accumulated_degrees
    else MoS.CENTER_VJOY_AXIS
  [Out.guiUpdate {
    offset := s.current_offset
    raw_angle := s.current_raw_angle
    smoothed_angle := s.previous_smoothed_angle
    total_accumulated_degrees := s.total_accumulated_degrees
    rotation_direction := s.rotation_direction
    angular_velocity := s.angular_velocity
    angular_acceleration := s.angular_acceleration
    vjoy_axis_value := axisVal
    is_steering := s.is_steering }]

/-- `SteeringLogic.stop` (`core_logic.py` lines 190–209): early return
with a status message when not steering; otherwise detach the listener,
write the center constant to the sink when the device is available, zero
velocity and acceleration, report, and emit the final snapshot through
`_send_data_update`. -/
def stop (s : MoS.SteeringState) : MoS.SteeringState × List Out :=
  if s.is_steering = false then (s, [Out.statusMsg "Not Steering"])
  else
    let s2 := { s with
      is_steering := false
      angular_velocity := 0
      angular_acceleration := 0 }
    (s2, (if s.vjoy_device then [Out.sinkWrite MoS.CENTER_VJOY_AXIS] else []) ++
      [Out.statusMsg "Steering Stopped"] ++ sendDataUpdate s2)

/-- The sequence of values written to the analog sink within an output
list of the standalone variant. -/
def sinkWrites (l : List Out) : List Int :=
  l.filterMap fun e =>
    match e with
    | Out.sinkWrite v => some v
    | _ => Option.none

/-- The `vjoy_axis_value` fields of the snapshots within an output list
of the standalone variant. -/
def snapshotAxes (l : List Out) : List Int :=
  l.filterMap fun e =>
    match e with
    | Out.guiUpdate d => some d.vjoy_axis_value
    | _ => Option.none

end MoSCore

namespace MoS

/-- The clamp at the end of `stepRotation` keeps the accumulator inside
`[-max_degrees, max_degrees]` whenever `max_degrees` is nonnegative. -/
theorem stepRotation_snd_mem (offset cth delta dth m t : ℚ) (hm : 0 ≤ m) :
    -m ≤ (stepRotation offset cth delta dth m t).2 ∧
    (stepRotation offset cth delta dth m t).2 ≤ m := by
  unfold stepRotation
  exact ⟨le_max_left _ _, max_le (by linarith) (min_le_left _ _)⟩

/-- With the pointer beyond the center threshold and a delta above the
hysteresis threshold, `stepRotation` classifies the event Clockwise. -/
theorem stepRotation_fst_clockwise (offset cth delta dth m t : ℚ)
    (hoff : cth ≤ offset) (hdelta : dth < delta) :
    (stepRotation offset cth delta dth m t).1 = Direction.clockwise := by
  unfold stepRotation
  rw [if_neg (not_lt.mpr hoff), if_pos hdelta]

/-- A Clockwise step moves the accumulator to the clamp of
`total + delta`. -/
theorem stepRotation_snd_clockwise (offset cth delta dth m t : ℚ)
    (hdth : 0 ≤ dth) (hoff : cth ≤ offset) (hdelta : dth < delta) :
    (stepRotation offset cth delta dth m t).2 = max (-m) (min m (t + delta)) := by
  unfold stepRotation
  rw [if_neg (not_lt.mpr hoff), if_pos hdelta, abs_of_nonneg (by linarith)]

/-- `on_move` never changes the configured `max_degrees`. -/
theorem on_move_max_degrees_eq (env : Env) (pos : Int × Int)
    (s : SteeringState) : (on_move env pos s).1.max_degrees = s.max_degrees := by
  obtain ⟨sen, maxd, dthr, cthr, raw, prev, tot, dir, off, vel, pvel, acc,
    sc, hist, vj, st⟩ := s
  cases sc <;> cases st <;> simp [on_move]

/-- One `on_move` step keeps the accumulator inside
`[-max_degrees, max_degrees]`. -/
theorem on_move_total_bounds (env : Env) (pos : Int × Int)
    (s : SteeringState) (hm : 0 ≤ s.max_degrees)
    (hlo : -s.max_degrees ≤ s.total_accumulated_degrees)
    (hhi : s.total_accumulated_degrees ≤ s.max_degrees) :
    -s.max_degrees ≤ (on_move env pos s).1.total_accumulated_degrees ∧
    (on_move env pos s).1.total_accumulated_degrees ≤ s.max_degrees := by
  obtain ⟨sen, maxd, dthr, cthr, raw, prev, tot, dir, off, vel, pvel, acc,
    sc, hist, vj, st⟩ := s
  cases sc with
  | none => simpa [on_move] using ⟨hlo, hhi⟩
  | some c =>
    cases st with
    | false => simpa [on_move] using ⟨hlo, hhi⟩
    | true =>
      simpa [on_move] using stepRotation_snd_mem _ _ _ _ _ _ hm

/-- `runEvents` preserves the clamping invariant of the accumulator. -/
theorem runEvents_inv (env : Env) :
    ∀ (events : List (Int × Int)) (s : SteeringState),
      0 ≤ s.max_degrees →
      -s.max_degrees ≤ s.total_accumulated_degrees →
      s.total_accumulated_degrees ≤ s.max_degrees →
      0 ≤ (runEvents env events s).max_degrees ∧
      -(runEvents env events s).max_degrees ≤
        (runEvents env events s).total_accumulated_degrees ∧
      (runEvents env events s).total_accumulated_degrees ≤
        (runEvents env events s).max_degrees := by
  intro events
  induction events with
  | nil => intro s hm hlo hhi; exact ⟨hm, hlo, hhi⟩
  | cons p events ih =>
    intro s hm hlo hhi
    have hbounds := on_move_total_bounds env p s hm hlo hhi
    have hmax := on_move_max_degrees_eq env p s
    have := ih (on_move env p s).1 (hmax ▸ hm) (by rw [hmax]; exact hbounds.1)
      (by rw [hmax]; exact hbounds.2)
    simpa [runEvents] using this

/-- Lower bound of the saturation argument: every Clockwise-classified
step raises the clamped accumulator by at least the hysteresis
threshold, until the upper clamp is reached. -/
theorem satFold_ge (cth dth m : ℚ) (hdth : 0 < dth) (hm : 0 ≤ m) :
    ∀ (l : List (ℚ × ℚ)) (t : ℚ), -m ≤ t →
      (∀ p ∈ l, cth ≤ p.1 ∧ dth < p.2) →
      min m (t + l.length * dth) ≤
        l.foldl (fun a p => (stepRotation p.1 cth p.2 dth m a).2) t := by
  intro l
  induction l with
  | nil =>
    intro t ht _
    simp only [List.length_nil, Nat.cast_zero, zero_mul, add_zero, List.foldl_nil]
    exact min_le_right m t
  | cons p l ih =>
    intro t ht hl
    obtain ⟨hp1, hp2⟩ := hl p (List.mem_cons_self p l)
    have hstep : (stepRotation p.1 cth p.2 dth m t).2 =
        max (-m) (min m (t + p.2)) :=
      stepRotation_snd_clockwise p.1 cth p.2 dth m t (le_of_lt hdth) hp1 hp2
    set t2 := (stepRotation p.1 cth p.2 dth m t).2 with ht2
    have ht2lo : -m ≤ t2 := by rw [hstep]; exact le_max_left _ _
    have ht2ge : min m (t + dth) ≤ t2 := by
      rw [hstep]
      refine le_trans ?_ (le_max_right _ _)
      exact min_le_min (le_refl m) (by linarith)
    have ihl := ih t2 ht2lo (fun q hq => hl q (List.mem_cons_of_mem p hq))
    have hlen : ((p :: l).length : ℚ) * dth = l.length * dth + dth := by
      push_cast [List.length_cons]
      ring
    have hkey : min m (t + (p :: l).length * dth) ≤ min m (t2 + l.length * dth) := by
      have hn : (0:ℚ) ≤ (l.length : ℚ) * dth :=
        mul_nonneg (Nat.cast_nonneg _) (le_of_lt hdth)
      rcases le_total m (t + dth) with hcase | hcase
      · have : t2 = m := by
          have ht2hi : t2 ≤ m := by
            rw [hstep]
            exact max_le (by linarith) (min_le_left _ _)
          have : min m (t + dth) = m := min_eq_left hcase
          linarith [ht2ge, this ▸ ht2ge]
        rw [this]
        have : min m (m + (l.length : ℚ) * dth) = m := min_eq_left (by linarith)
        rw [this]
        exact min_le_left _ _
      · have hmin : min m (t + dth) = t + dth := min_eq_right hcase
        have : min m (t + dth + (l.length : ℚ) * dth) ≤
            min m (t2 + (l.length : ℚ) * dth) :=
          min_le_min (le_refl m) (by rw [hmin] at ht2ge; linarith)
        calc min m (t + (p :: l).length * dth)
            = min m (t + dth + (l.length : ℚ) * dth) := by rw [hlen]; ring_nf
          _ ≤ min m (t2 + (l.length : ℚ) * dth) := this

    calc min m (t + (p :: l).length * dth)
        ≤ min m (t2 + l.length * dth) := hkey
      _ ≤ (p :: l).foldl (fun a q => (stepRotation q.1 cth q.2 dth m a).2) t := by
          simpa [List.foldl_cons] using ihl

/-- Upper bound of the saturation argument: the clamp never lets the
accumulator exceed `max_degrees`. -/
theorem satFold_le (cth dth m : ℚ) (hm : 0 ≤ m) :
    ∀ (l : List (ℚ × ℚ)) (t : ℚ), t ≤ m →
      l.foldl (fun a p => (stepRotation p.1 cth p.2 dth m a).2) t ≤ m := by
  intro l
  induction l with
  | nil => intro t ht; simpa using ht
  | cons p l ih =>
    intro t ht
    have := (stepRotation_snd_mem p.1 cth p.2 dth m t hm).2
    simpa [List.foldl_cons] using ih _ this

/-- C1: for every sequence of processed pointer events the accumulator
`total_accumulated_degrees` stays inside `[-max_degrees, max_degrees]`
(first conjunct, over arbitrary event sequences, hence after each
event); an event beyond the center threshold whose corrected delta
exceeds the hysteresis threshold is classified Clockwise (second
conjunct); and a sufficiently long run of Clockwise-classified steps —
`max_degrees ≤ total + n·threshold` — drives the accumulator to exactly
`max_degrees` (third conjunct). -/
theorem total_rotation_clamped_and_saturates :
    (∀ (env : Env) (events : List (Int × Int)) (s : SteeringState),
      0 ≤ s.max_degrees →
      -s.max_degrees ≤ s.total_accumulated_degrees →
      s.total_accumulated_degrees ≤ s.max_degrees →
      -(runEvents env events s).max_degrees ≤
        (runEvents env events s).total_accumulated_degrees ∧
      (runEvents env events s).total_accumulated_degrees ≤
        (runEvents env events s).max_degrees) ∧
    (∀ (offset cth delta dth m t : ℚ), cth ≤ offset → dth < delta →
      (stepRotation offset cth delta dth m t).1 = Direction.clockwise) ∧
    (∀ (cth dth m t : ℚ) (l : List (ℚ × ℚ)),
      0 < dth → 0 ≤ m → -m ≤ t → t ≤ m →
      (∀ p ∈ l, cth ≤ p.1 ∧ dth < p.2) →
      m ≤ t + l.length * dth →
      l.foldl (fun a p => (stepRotation p.1 cth p.2 dth m a).2) t = m) := by
  refine ⟨?_, ?_, ?_⟩
  · intro env events s hm hlo hhi
    exact (runEvents_inv env events s hm hlo hhi).2
  · intro offset cth delta dth m t hoff hdelta
    exact stepRotation_fst_clockwise offset cth delta dth m t hoff hdelta
  · intro cth dth m t l hdth hm hlo hhi hl hlen
    have hge := satFold_ge cth dth m hdth hm l t hlo hl
    rw [min_eq_left hlen] at hge
    have hle := satFold_le cth dth m hm l t hhi
    linarith

/-- Witness for C1 at concrete inputs: the empty event sequence from
the freshly constructed state, a single concrete Clockwise
classification, and a two-step saturation run with `max_degrees = 2`. -/
theorem total_rotation_clamped_and_saturates_witness :
    (-(runEvents constEnv [] (initState true)).max_degrees ≤
        (runEvents constEnv [] (initState true)).total_accumulated_degrees ∧
      (runEvents constEnv [] (initState true)).total_accumulated_degrees ≤
        (runEvents constEnv [] (initState true)).max_degrees) ∧
    (stepRotation 20 15 2 1 1080 0).1 = Direction.clockwise ∧
    ([((20:ℚ), (2:ℚ)), (20, 2)]).foldl
      (fun a p => (stepRotation p.1 15 p.2 1 2 a).2) 0 = 2 := by
  refine ⟨?_, ?_, ?_⟩
  · exact total_rotation_clamped_and_saturates.1 constEnv [] (initState true)
      (by norm_num [initState]) (by norm_num [initState])
      (by norm_num [initState])
  · exact total_rotation_clamped_and_saturates.2.1 20 15 2 1 1080 0
      (by norm_num) (by norm_num)
  · exact total_rotation_clamped_and_saturates.2.2 15 1 2 0
      [((20:ℚ), (2:ℚ)), (20, 2)] (by norm_num) (by norm_num) (by norm_num)
      (by norm_num)
      (by
        intro p hp
        simp only [List.mem_cons, List.not_mem_nil, or_false] at hp
        rcases hp with h | h <;> subst h <;> norm_num)
      (by norm_num)

/-- C2: the wraparound correction maps every delta of two angles in
`(-180, 180]` into `[-180, 180]`; in particular the smoothed-angle
sequence `[179, -179]` yields a corrected delta of `2`, not `-358`, and
(beyond the center threshold, with the default thresholds) the event is
classified Clockwise. -/
theorem wrapDelta_range_and_example :
    (∀ a b : ℚ, -180 < a → a ≤ 180 → -180 < b → b ≤ 180 →
      -180 ≤ wrapDelta (a - b) ∧ wrapDelta (a - b) ≤ 180) ∧
    wrapDelta ((-179) - 179) = 2 ∧
    (stepRotation 20 15 (wrapDelta ((-179) - 179)) 1 1080 0).1 =
      Direction.clockwise := by
  refine ⟨?_, ?_, ?_⟩
  · intro a b ha1 ha2 hb1 hb2
    unfold wrapDelta
    split_ifs with h1 h2 <;> constructor <;> linarith
  · norm_num [wrapDelta]
  · norm_num [wrapDelta, stepRotation]

/-- Witness for C2 at the concrete smoothed-angle pair `(-179, 179)`. -/
theorem wrapDelta_range_and_example_witness :
    -180 ≤ wrapDelta ((-179) - 179) ∧ wrapDelta ((-179) - 179) ≤ 180 :=
  wrapDelta_range_and_example.1 (-179) 179 (by norm_num) (by norm_num)
    (by norm_num) (by norm_num)

/-- When the offset is below the center threshold the classification
branch returns Neutral and leaves an in-range accumulator untouched. -/
theorem stepRotation_center (offset cth delta dth m t : ℚ)
    (hoff : offset < cth) (hlo : -m ≤ t) (hhi : t ≤ m) :
    stepRotation offset cth delta dth m t = (Direction.neutral, t) := by
  unfold stepRotation
  rw [if_pos hoff]
  simp only
  rw [min_eq_right hhi, max_eq_right hlo]

/-- C3: a processed pointer event with offset below
`mouse_center_threshold` is classified Neutral and leaves
`total_accumulated_degrees` unchanged, whatever the corrected delta is;
the center check precedes the hysteresis comparisons. -/
theorem center_suppression (env : Env) (c pos : Int × Int)
    (s : SteeringState) (hc : s.screen_center = some c)
    (hst : s.is_steering = true)
    (hoff : env.offsetOf c pos < s.mouse_center_threshold)
    (hlo : -s.max_degrees ≤ s.total_accumulated_degrees)
    (hhi : s.total_accumulated_degrees ≤ s.max_degrees) :
    (on_move env pos s).1.rotation_direction = Direction.neutral ∧
    (on_move env pos s).1.total_accumulated_degrees =
      s.total_accumulated_degrees := by
  simp only [on_move, hc, hst, if_true]
  rw [stepRotation_center _ _ _ _ _ _ hoff hlo hhi]
  exact ⟨rfl, rfl⟩

/-- Witness for C3: a pointer event at the pivot itself (offset `0`,
below the threshold `15`) from the freshly started state. -/
theorem center_suppression_witness :
    (on_move constEnv (0, 0) activeState).1.rotation_direction =
      Direction.neutral ∧
    (on_move constEnv (0, 0) activeState).1.total_accumulated_degrees =
      activeState.total_accumulated_degrees :=
  center_suppression constEnv (0, 0) (0, 0) activeState rfl rfl
    (by norm_num [constEnv, activeState, initState])
    (by norm_num [activeState, initState])
    (by norm_num [activeState, initState])

/-- The clamp and the `int()` truncation of `axisFromRotation` vanish
for an in-range rotation: the axis value is the floor of the linear
rescaling. -/
theorem axisFromRotation_eq_floor (m t : ℚ) (hm : 0 < m)
    (hlo : -m ≤ t) (hhi : t ≤ m) :
    axisFromRotation m t = ⌊(t + m) / (2 * m) * 32767⌋ := by
  have h2m : ¬(2 * m = 0) := by positivity
  have hq0 : 0 ≤ (t + m) / (2 * m) := by
    apply div_nonneg <;> linarith
  have hq1 : (t + m) / (2 * m) ≤ 1 := by
    rw [div_le_one (by linarith)]
    linarith
  have hv0 : 0 ≤ (t + m) / (2 * m) * 32767 := by positivity
  have hv1 : (t + m) / (2 * m) * 32767 ≤ 32767 := by nlinarith
  have hfl0 : 0 ≤ ⌊(t + m) / (2 * m) * 32767⌋ := Int.floor_nonneg.mpr hv0
  have hfl1 : ⌊(t + m) / (2 * m) * 32767⌋ ≤ 32767 := by
    have := Int.floor_le_floor (α := ℚ) hv1
    simpa using this
  simp only [axisFromRotation, h2m, if_false, pyInt, MAX_VJOY_AXIS,
    MIN_VJOY_AXIS]
  rw [sub_neg_eq_add]
  push_cast
  rw [sub_zero, add_zero, if_pos hv0, min_eq_right hfl1, max_eq_right hfl0]

/-- C4 counterexample: at `total_rotation = 1` with the default
`max_degrees = 1080` the code's `int()` truncation yields `16398`,
while the claimed round-to-nearest mapping yields `16399`. -/
theorem axis_mapper_round_counterexample :
    axisFromRotation 1080 1 = 16398 ∧
    axisFromRotationSpec 1080 1 = 16399 ∧
    axisFromRotation 1080 1 ≠ axisFromRotationSpec 1080 1 := by
  refine ⟨?_, ?_, ?_⟩ <;>
    norm_num [axisFromRotation, axisFromRotationSpec, pyInt, round_eq,
      MAX_VJOY_AXIS, MIN_VJOY_AXIS]

/-- C4 amended: for `max_degrees > 0` the axis mapper computes the
truncation toward zero (the floor, the scaled value being nonnegative)
of `normalized * (max_axis - min_axis) + min_axis`, then clamps;
`total_rotation = -max_degrees` maps exactly to `min_axis`,
`+max_degrees` exactly to `max_axis`, and `0` to `16383` for the
default `[0, 32767]` range. -/
theorem axis_mapper_truncates_with_exact_boundaries (m : ℚ) (hm : 0 < m) :
    axisFromRotation m (-m) = MIN_VJOY_AXIS ∧
    axisFromRotation m m = MAX_VJOY_AXIS ∧
    axisFromRotation m 0 = 16383 ∧
    (∀ t : ℚ, -m ≤ t → t ≤ m →
      axisFromRotation m t = ⌊(t + m) / (2 * m) * 32767⌋) := by
  have h2m : (2 * m) ≠ 0 := by positivity
  refine ⟨?_, ?_, ?_, fun t hlo hhi => axisFromRotation_eq_floor m t hm hlo hhi⟩
  · rw [axisFromRotation_eq_floor m (-m) hm (le_refl _) (by linarith)]
    norm_num [MIN_VJOY_AXIS]
  · rw [axisFromRotation_eq_floor m m hm (by linarith) (le_refl _)]
    rw [show m + m = 2 * m by ring, div_self h2m]
    norm_num [MAX_VJOY_AXIS]
  · rw [axisFromRotation_eq_floor m 0 hm (by linarith) (by linarith)]
    rw [zero_add, show m / (2 * m) = 1 / 2 by field_simp; ring]
    norm_num

/-- Witness for C4 (amended) at the default `max_degrees = 1080`. -/
theorem axis_mapper_truncates_witness :
    axisFromRotation 1080 (-1080) = MIN_VJOY_AXIS ∧
    axisFromRotation 1080 1080 = MAX_VJOY_AXIS ∧
    axisFromRotation 1080 0 = 16383 :=
  ⟨(axis_mapper_truncates_with_exact_boundaries 1080 (by norm_num)).1,
   (axis_mapper_truncates_with_exact_boundaries 1080 (by norm_num)).2.1,
   (axis_mapper_truncates_with_exact_boundaries 1080 (by norm_num)).2.2.1⟩

/-- C5: while steering with the device available, `stop_steering`
writes exactly one value to the sink, the configured center
`(MIN_VJOY_AXIS + MAX_VJOY_AXIS) // 2 = 16383`, whatever the
accumulator holds — and the stopped state processes no further events,
so that write is the session's last; calling it while already stopped
changes no state and emits nothing. -/
theorem stop_forces_center_and_idempotent (env : Env) (s : SteeringState) :
    CENTER_VJOY_AXIS = (MIN_VJOY_AXIS + MAX_VJOY_AXIS) / 2 ∧
    CENTER_VJOY_AXIS = 16383 ∧
    (s.is_steering = true → s.vjoy_device = true →
      sinkWrites (stop_steering s).2 = [CENTER_VJOY_AXIS] ∧
      (stop_steering s).1.is_steering = false ∧
      (stop_steering s).1.total_accumulated_degrees =
        s.total_accumulated_degrees ∧
      (∀ pos, on_move env pos (stop_steering s).1 =
        ((stop_steering s).1, []))) ∧
    (s.is_steering = false → stop_steering s = (s, [])) := by
  refine ⟨by norm_num [CENTER_VJOY_AXIS, MAX_VJOY_AXIS, MIN_VJOY_AXIS],
    by norm_num [CENTER_VJOY_AXIS, MAX_VJOY_AXIS, MIN_VJOY_AXIS], ?_, ?_⟩
  · intro hst hv
    refine ⟨by simp [stop_steering, hst, hv, sinkWrites], ?_, ?_, ?_⟩
    · simp [stop_steering, hst]
    · simp [stop_steering, hst]
    · intro pos
      have hns : (stop_steering s).1.is_steering = false := by
        simp [stop_steering, hst]
      cases hsc : (stop_steering s).1.screen_center with
      | none => simp [on_move, hsc]
      | some c => simp [on_move, hsc, hns]
  · intro h
    simp [stop_steering, h]

/-- Witness for C5: stopping the freshly started state, and stopping
the fresh (never started) state. -/
theorem stop_forces_center_witness :
    sinkWrites (stop_steering activeState).2 = [CENTER_VJOY_AXIS] ∧
    (stop_steering activeState).1.is_steering = false ∧
    stop_steering (initState true) = (initState true, []) :=
  ⟨((stop_forces_center_and_idempotent constEnv activeState).2.2.1 rfl
      rfl).1,
   ((stop_forces_center_and_idempotent constEnv activeState).2.2.1 rfl
      rfl).2.1,
   (stop_forces_center_and_idempotent constEnv (initState true)).2.2.2 rfl⟩

/-- C6: `start_steering` invoked while the vJoy sink is unavailable or
the screen center is unset reports a precondition error to the error
channel, raises nothing (the model is total), leaves `is_steering`
false and the whole state unchanged. -/
theorem start_precondition_error (env : Env) (pos : Int × Int)
    (s : SteeringState) (hns : s.is_steering = false)
    (h : s.vjoy_device = false ∨ s.screen_center = Option.none) :
    (start_steering env pos s).1 = s ∧
    (start_steering env pos s).1.is_steering = false ∧
    ∃ m, (start_steering env pos s).2 = [Out.errorMsg m] := by
  have key : ∃ m, start_steering env pos s = (s, [Out.errorMsg m]) := by
    rcases h with h | h
    · exact ⟨"vJoy device not available. Cannot start.",
        by simp [start_steering, hns, h]⟩
    · cases hv : s.vjoy_device
      · exact ⟨"vJoy device not available. Cannot start.",
          by simp [start_steering, hns, hv]⟩
      · exact ⟨"Screen center not set. Please ensure GUI initializes it.",
          by simp [start_steering, hns, hv, h]⟩
  obtain ⟨m, hm⟩ := key
  rw [hm]
  exact ⟨rfl, hns, ⟨m, rfl⟩⟩

/-- Witness for C6: starting with the sink unavailable. -/
theorem start_precondition_error_witness :
    (start_steering constEnv (0, 0) (initState false)).1 =
      initState false ∧
    (start_steering constEnv (0, 0) (initState false)).1.is_steering =
      false ∧
    ∃ m, (start_steering constEnv (0, 0) (initState false)).2 =
      [Out.errorMsg m] :=
  start_precondition_error constEnv (0, 0) (initState false) rfl
    (Or.inl rfl)

/-- C7: `reset_steering_view` zeroes the accumulator, the angular
velocity and the angular acceleration, re-seeds the smoother with
copies of the angle at the current pointer position, and — with the
pointer unmoved and no intervening events — running it twice equals
running it once, state and outputs alike. -/
theorem recenter_zeroes_and_idempotent (env : Env) (pos : Int × Int)
    (s : SteeringState) :
    (reset_steering_view env pos s).1.total_accumulated_degrees = 0 ∧
    (reset_steering_view env pos s).1.angular_velocity = 0 ∧
    (reset_steering_view env pos s).1.angular_acceleration = 0 ∧
    (reset_steering_view env pos s).1.previous_smoothed_angle =
      calcRawAngle env s pos ∧
    (reset_steering_view env pos s).1.angle_history =
      List.replicate ANGLE_HISTORY_MAXLEN (calcRawAngle env s pos) ∧
    reset_steering_view env pos (reset_steering_view env pos s).1 =
      reset_steering_view env pos s := by
  refine ⟨rfl, rfl, rfl, rfl, rfl, ?_⟩
  obtain ⟨sen, maxd, dthr, cthr, raw, prev, tot, dir, off, vel, pvel, acc,
    sc, hist, vj, st⟩ := s
  cases sc <;> simp [reset_steering_view, calcRawAngle]

/-- The deque append of the seed angle onto a fully seeded history is a
no-op. -/
theorem dequeAppend_full_replicate (a : ℚ) :
    dequeAppend ANGLE_HISTORY_MAXLEN
      (List.replicate ANGLE_HISTORY_MAXLEN a) a =
      List.replicate ANGLE_HISTORY_MAXLEN a := rfl

/-- C8: after a successful `start_steering` seeds the smoother with
`ANGLE_HISTORY_MAXLEN` copies of the angle at the current position, a
first pointer event at that same position leaves the smoothed angle
equal to the seed and reports a corrected delta — hence an
`angular_velocity` — of exactly `0`. -/
theorem smoothing_warmup (env : Env) (c pos : Int × Int)
    (s : SteeringState) (hns : s.is_steering = false)
    (hv : s.vjoy_device = true) (hc : s.screen_center = some c) :
    (on_move env pos (start_steering env pos s).1).1.previous_smoothed_angle
      = env.extractAngle c pos ∧
    (on_move env pos (start_steering env pos s).1).1.angular_velocity
      = 0 := by
  have hstart : (start_steering env pos s).1 = { s with
      is_steering := true
      previous_smoothed_angle := env.extractAngle c pos
      angle_history :=
        List.replicate ANGLE_HISTORY_MAXLEN (env.extractAngle c pos)
      angular_velocity := 0
      previous_angular_velocity := 0
      angular_acceleration := 0
      rotation_direction := Direction.neutral } := by
    simp [start_steering, hns, hv, hc]
  have hsm : ((List.replicate ANGLE_HISTORY_MAXLEN
      (env.extractAngle c pos)).sum) /
      ((List.replicate ANGLE_HISTORY_MAXLEN
        (env.extractAngle c pos)).length : ℚ) = env.extractAngle c pos := by
    simp [List.sum_replicate, ANGLE_HISTORY_MAXLEN, nsmul_eq_mul]
    ring
  have hwrap : wrapDelta 0 = 0 := by norm_num [wrapDelta]
  have h5 : ((ANGLE_HISTORY_MAXLEN : ℚ)) ≠ 0 := by
    norm_num [ANGLE_HISTORY_MAXLEN]
  rw [hstart]
  simp [on_move, hc, dequeAppend_full_replicate, hsm, sub_self, hwrap,
    mul_div_cancel_left₀, h5]

/-- Witness for C8: starting at the pivot and moving to the pivot. -/
theorem smoothing_warmup_witness :
    (on_move constEnv (0, 0)
      (start_steering constEnv (0, 0)
        { initState true with
          screen_center := some (0, 0) }).1).1.previous_smoothed_angle =
      constEnv.extractAngle (0, 0) (0, 0) ∧
    (on_move constEnv (0, 0)
      (start_steering constEnv (0, 0)
        { initState true with
          screen_center := some (0, 0) }).1).1.angular_velocity = 0 :=
  smoothing_warmup constEnv (0, 0) (0, 0)
    { initState true with screen_center := some (0, 0) } rfl rfl rfl

/-- C9: `update_sensitivity` rewrites only the stored sensitivity
field, and `on_move` is entirely independent of that field: processing
any event from a state whose sensitivity was changed yields the changed
state of processing it unchanged — so the amount accumulated never
depends on the sensitivity. -/
theorem sensitivity_only_updates_config :
    (∀ (v : ℚ) (s : SteeringState),
      (update_sensitivity v s).1 = { s with sensitivity := v } ∧
      (update_sensitivity v s).1.total_accumulated_degrees =
        s.total_accumulated_degrees) ∧
    (∀ (env : Env) (pos : Int × Int) (v : ℚ) (s : SteeringState),
      (on_move env pos { s with sensitivity := v }).1 =
        { (on_move env pos s).1 with sensitivity := v } ∧
      (on_move env pos
          { s with sensitivity := v }).1.total_accumulated_degrees =
        (on_move env pos s).1.total_accumulated_degrees) := by
  constructor
  · intro v s
    exact ⟨rfl, rfl⟩
  · intro env pos v s
    obtain ⟨sen, maxd, dthr, cthr, raw, prev, tot, dir, off, vel, pvel,
      acc, sc, hist, vj, st⟩ := s
    cases sc <;> cases st <;> simp [on_move]

end MoS

namespace MoSCore

/-- C10: in the standalone variant, `stop` while active with the device
available writes the center constant to the sink, yet the final
snapshot emitted through `_send_data_update` carries a
`vjoy_axis_value` recomputed from the retained accumulator; whenever
that recomputed integer differs from the center, the snapshot value
differs from the value actually written — as it does at the default
`max_degrees = 1080` with `total_accumulated_degrees = 1080`. -/
theorem stop_snapshot_sink_mismatch (s : MoS.SteeringState)
    (hst : s.is_steering = true) (hv : s.vjoy_device = true) :
    sinkWrites (stop s).2 = [MoS.CENTER_VJOY_AXIS] ∧
    snapshotAxes (stop s).2 =
      [axisValueOf s.max_degrees s.total_accumulated_degrees] ∧
    (axisValueOf s.max_degrees s.total_accumulated_degrees ≠
        MoS.CENTER_VJOY_AXIS →
      snapshotAxes (stop s).2 ≠ sinkWrites (stop s).2) ∧
    axisValueOf 1080 1080 ≠ MoS.CENTER_VJOY_AXIS := by
  have h1 : sinkWrites (stop s).2 = [MoS.CENTER_VJOY_AXIS] := by
    simp [stop, hst, hv, sendDataUpdate, sinkWrites]
  have h2 : snapshotAxes (stop s).2 =
      [axisValueOf s.max_degrees s.total_accumulated_degrees] := by
    simp [stop, hst, hv, sendDataUpdate, snapshotAxes]
  refine ⟨h1, h2, ?_, ?_⟩
  · intro hne
    rw [h1, h2]
    simp [hne]
  · norm_num [axisValueOf, MoS.pyInt, MoS.MAX_VJOY_AXIS, MoS.MIN_VJOY_AXIS,
      MoS.CENTER_VJOY_AXIS]

/-- Witness for C10: stopping while active at full right lock. -/
theorem stop_snapshot_sink_mismatch_witness :
    sinkWrites
      (stop { MoS.activeState with
        total_accumulated_degrees := 1080 }).2 = [MoS.CENTER_VJOY_AXIS] ∧
    snapshotAxes
      (stop { MoS.activeState with
        total_accumulated_degrees := 1080 }).2 ≠
      sinkWrites
        (stop { MoS.activeState with
          total_accumulated_degrees := 1080 }).2 :=
  ⟨(stop_snapshot_sink_mismatch
      { MoS.activeState with total_accumulated_degrees := 1080 } rfl
      rfl).1,
   (stop_snapshot_sink_mismatch
      { MoS.activeState with total_accumulated_degrees := 1080 } rfl
      rfl).2.2.1
    ((stop_snapshot_sink_mismatch
        { MoS.activeState with total_accumulated_degrees := 1080 } rfl
        rfl).2.2.2)⟩

end MoSCore
